import Mathlib

set_option autoImplicit false

/-!
Verification model of the beauty-parlour booking backend.

The definitions below are a shallow embedding of the JavaScript source:
`models/Booking.js` (the mongoose schema: the `(date, time)` unique index,
the `pre('save')` time/timeSlot sync hook), `models/TimeSlot.js`,
`controllers/bookingController.js` (createBooking, updateBooking,
cancelBooking, deleteBooking, with the Joi validation schemas) and
`controllers/timeSlotController.js` (getTimeSlots).

Modelling conventions:
* instants are `Nat` milliseconds since the epoch; `setUTCHours(0,0,0,0)`
  is `truncDay`;
* MongoDB collections are Lean lists; `findOne`/`findById` are `List.find?`,
  `updateOne` with a positional `slots.$` operator updates the first matching
  slot of the first matching document;
* the `(date, time)` unique index of `bookingSchema.index` is checked at
  insert over all stored bookings (it has no partial filter, so cancelled
  bookings participate), and a violation yields the duplicate-key outcome
  that the controller converts to HTTP 409;
* absent JS fields (`undefined`) are `Option.none`; `timeSlot || time`
  is an `Option` fallback (the values are Joi/mongoose validated to be
  non-empty HH:MM strings, so JS falsiness coincides with absence);
* outbound WhatsApp notifications are recorded as a list of attempted
  notification kinds, guarded by a `twilioOn` flag that models the
  presence of Twilio credentials;
* fields irrelevant to every claim (email, serviceId, userId, ObjectId
  formatting of ids, timestamps) are elided; ids are plain `Nat`, always
  well formed.
-/

namespace Parlour

/-- Booking status enum of `models/Booking.js` (`pending`, `confirmed`,
`cancelled`, `completed`). -/
inductive BStatus where
  | pending
  | confirmed
  | cancelled
  | completed
deriving DecidableEq, Repr

/-- One document of the Booking collection (`models/Booking.js`). -/
structure Booking where
  id : Nat
  name : String
  phone : String
  service : String
  date : Nat
  time : Option String
  timeSlot : Option String
  status : BStatus
  notes : Option String
deriving DecidableEq, Repr

/-- One slot row of a TimeSlot document (`models/TimeSlot.js`). -/
structure Slot where
  time : String
  available : Bool
  bookedBy : Option Nat
deriving DecidableEq, Repr

/-- One document of the TimeSlot collection: a date with its slot rows. -/
structure SlotEntry where
  date : Nat
  slots : List Slot
deriving DecidableEq, Repr

/-- The persistent state: the Booking collection, the TimeSlot collection
and the id counter used for freshly inserted bookings. -/
structure DB where
  bookings : List Booking
  slotEntries : List SlotEntry
  nextId : Nat
deriving DecidableEq, Repr

/-- Milliseconds per day. -/
def msPerDay : Nat := 86400000

/-- Day-granularity truncation, the model of `setUTCHours(0, 0, 0, 0)`. -/
def truncDay (t : Nat) : Nat := t / msPerDay * msPerDay

/-- The HH:MM 24-hour pattern of the Joi schema and the mongoose `time` and
`timeSlot` fields: regex ^([0-1][0-9]|2[0-3]):[0-5][0-9]$. -/
def isHHMM (s : String) : Bool :=
  match s.toList with
  | [h1, h2, c, m1, m2] =>
      (((h1 == '0' || h1 == '1') && h2.isDigit) ||
        (h1 == '2' && (h2 == '0' || h2 == '1' || h2 == '2' || h2 == '3'))) &&
      c == ':' &&
      (m1 == '0' || m1 == '1' || m1 == '2' || m1 == '3' || m1 == '4' || m1 == '5') &&
      m2.isDigit
  | _ => false

/-- The phone pattern ^[0-9]\x7b10\x7d$ of the Joi schema. -/
def isPhone (s : String) : Bool :=
  s.length == 10 && s.toList.all Char.isDigit

/-- The body of a create request (`POST /api/bookings`), already parsed:
`date` is the parsed instant. The email field, irrelevant to every claim,
is elided. -/
structure CreateReq where
  name : String
  phone : String
  service : String
  date : Nat
  timeSlot : Option String
  time : Option String
  notes : Option String
  status : Option BStatus
deriving DecidableEq, Repr

/-- All checks of the Joi `bookingSchema` except the date bound: name
length 2..100, phone pattern, service required (non-empty), timeSlot/time
HH:MM patterns when present, notes at most 500 chars, and the
or(timeSlot, time) requirement. -/
def joiRestOk (req : CreateReq) : Bool :=
  decide (2 ≤ req.name.length) && decide (req.name.length ≤ 100) &&
  isPhone req.phone &&
  decide (req.service ≠ "") &&
  (match req.timeSlot with | none => true | some t => isHHMM t) &&
  (match req.time with | none => true | some t => isHHMM t) &&
  (match req.notes with | none => true | some n => decide (n.length ≤ 500)) &&
  (req.timeSlot.isSome || req.time.isSome)

/-- The Joi date bound: Joi.date().min applied to the current instant
accepts exactly the dates at or after `now`. -/
def joiDateOk (now : Nat) (req : CreateReq) : Bool :=
  decide (now ≤ req.date)

/-- The full Joi `bookingSchema` validation. -/
def joiValidate (now : Nat) (req : CreateReq) : Bool :=
  joiRestOk req && joiDateOk now req

/-- The selected time of a create request: `timeSlot || time`. -/
def selTime (req : CreateReq) : Option String :=
  match req.timeSlot with
  | some t => some t
  | none => req.time

/-- The effective time of a stored booking: `booking.timeSlot || booking.time`. -/
def effTime (b : Booking) : Option String :=
  match b.timeSlot with
  | some t => some t
  | none => b.time

/-- The mongoose `pre('save')` hook of `models/Booking.js`: copy `time`
into `timeSlot` when only `time` is set, copy `timeSlot` into `time`
when only `timeSlot` is set, and leave the document alone otherwise. -/
def preSave (b : Booking) : Booking :=
  if b.time.isSome && b.timeSlot.isNone then { b with timeSlot := b.time }
  else if b.timeSlot.isSome && b.time.isNone then { b with time := b.timeSlot }
  else b

/-- Overwrite availability and back-reference of a slot row, the model of
the `slots.$.available` / `slots.$.bookedBy` positional update. -/
def setSlotState (av : Bool) (bid : Option Nat) (s : Slot) : Slot :=
  { s with available := av, bookedBy := bid }

/-- Update the first slot row carrying the given time label. -/
def updateFirstSlot (t : String) (f : Slot → Slot) : List Slot → List Slot
  | [] => []
  | s :: rest => if s.time = t then f s :: rest else s :: updateFirstSlot t f rest

/-- Whether a slot row carries the given time label. -/
def slotTimeMatches (t : String) (s : Slot) : Bool :=
  decide (s.time = t)

/-- Whether a TimeSlot document matches the query of
TimeSlot.updateOne on date and slot time. -/
def entryMatches (d : Nat) (t : String) (e : SlotEntry) : Bool :=
  decide (e.date = d) && e.slots.any (slotTimeMatches t)

/-- The model of TimeSlot.updateOne on a date and slot-time query with a
positional `slots.$` set: the first document matching both conditions has
its first matching slot row rewritten; every other document is untouched. -/
def markSlot (d : Nat) (t : String) (av : Bool) (bid : Option Nat) :
    List SlotEntry → List SlotEntry
  | [] => []
  | e :: rest =>
      if entryMatches d t e then
        { e with slots := updateFirstSlot t (setSlotState av bid) e.slots } :: rest
      else
        e :: markSlot d t av bid rest

/-- TimeSlot.updateOne keyed by an optional effective time: a query on an
absent time matches no document. -/
def markSlotOpt (d : Nat) (t : Option String) (av : Bool) (bid : Option Nat)
    (entries : List SlotEntry) : List SlotEntry :=
  match t with
  | none => entries
  | some t0 => markSlot d t0 av bid entries

/-- Booking.findById over the collection. -/
def findBooking (db : DB) (id : Nat) : Option Booking :=
  db.bookings.find? (fun b => decide (b.id = id))

/-- TimeSlot.findOne on a date. -/
def findSlotEntry (entries : List SlotEntry) (d : Nat) : Option SlotEntry :=
  entries.find? (fun e => decide (e.date = d))

/-- The predicate of the createBooking pre-check query: same date, same
time in either field, status not cancelled. -/
def ledgerConflictPred (d : Nat) (t : String) (b : Booking) : Bool :=
  decide (b.date = d) &&
  (decide (b.timeSlot = some t) || decide (b.time = some t)) &&
  decide (b.status ≠ BStatus.cancelled)

/-- The createBooking pre-check: Booking.findOne on date, timeSlot-or-time,
status not cancelled, reduced to existence. -/
def hasLedgerConflict (db : DB) (d : Nat) (t : String) : Bool :=
  db.bookings.any (ledgerConflictPred d t)

/-- The `(date, time)` unique index of `bookingSchema.index`: an insert of
a booking with this date and time collides iff some stored booking, of any
status, already carries the pair. -/
def uniqueIndexViolation (db : DB) (d : Nat) (t : String) : Bool :=
  db.bookings.any (fun b => decide (b.date = d) && decide (b.time = some t))

/-- The createBooking TimeSlot check: a conflict iff a TimeSlot document
for the date exists, has a slot row with the selected time, and that row
is unavailable. -/
def boardConflict (db : DB) (d : Nat) (t : String) : Bool :=
  match findSlotEntry db.slotEntries d with
  | none => false
  | some e =>
      match e.slots.find? (slotTimeMatches t) with
      | none => false
      | some s => !s.available

/-- Outcomes of createBooking, one constructor per early return of the
controller: Joi failure (400), missing time (400), past date (400), the
three HTTP 409 conflicts (TimeSlot board, ledger pre-check, duplicate-key
E11000), and success (201). -/
inductive CreateResult where
  | validationErr
  | missingTime
  | pastDate
  | slotConflict
  | ledgerConflict
  | duplicateKey
  | created (b : Booking)
deriving DecidableEq, Repr

/-- The outcomes reported to the client as HTTP 409 Conflict. -/
def isConflict : CreateResult → Bool
  | .slotConflict => true
  | .ledgerConflict => true
  | .duplicateKey => true
  | _ => false

/-- JS String.prototype.trim: strip leading and trailing whitespace
(structural implementation over the character list). -/
def strTrim (s : String) : String :=
  ⟨((s.data.dropWhile Char.isWhitespace).reverse.dropWhile
    Char.isWhitespace).reverse⟩

/-- The notes normalisation of createBooking: `notes?.trim() || undefined`. -/
def normNotes : Option String → Option String
  | none => none
  | some s => if strTrim s = "" then none else some (strTrim s)

/-- createBooking of `controllers/bookingController.js`: Joi validation,
selected time, day truncation, past-date check, TimeSlot board check,
ledger pre-check, insert under the unique index (with the pre-save hook),
then the best-effort TimeSlot positional update. -/
def createBooking (db : DB) (now : Nat) (req : CreateReq) : CreateResult × DB :=
  if joiValidate now req then
    match selTime req with
    | none => (.missingTime, db)
    | some selectedTime =>
      let bookingDate := truncDay req.date
      let today := truncDay now
      if bookingDate < today then (.pastDate, db)
      else if boardConflict db bookingDate selectedTime then (.slotConflict, db)
      else if hasLedgerConflict db bookingDate selectedTime then (.ledgerConflict, db)
      else if uniqueIndexViolation db bookingDate selectedTime then (.duplicateKey, db)
      else
        let booking := preSave {
          id := db.nextId
          name := strTrim req.name
          phone := req.phone
          service := strTrim req.service
          date := bookingDate
          time := some selectedTime
          timeSlot := some selectedTime
          status := req.status.getD .confirmed
          notes := normNotes req.notes }
        let entries1 := markSlot bookingDate selectedTime false (some booking.id) db.slotEntries
        (.created booking,
          { bookings := db.bookings ++ [booking]
            slotEntries := entries1
            nextId := db.nextId + 1 })
  else (.validationErr, db)

/-- Outcomes of cancelBooking, one constructor per return of the
controller: 404, the two descriptive 400 domain errors, and success. -/
inductive CancelResult where
  | notFound
  | alreadyCancelled
  | pastDate
  | success
deriving DecidableEq, Repr

/-- cancelBooking of `controllers/bookingController.js`: findById, the
already-cancelled check, the past-date check (day granularity on both
sides), then persist status cancelled and release the TimeSlot row. -/
def cancelBooking (db : DB) (now : Nat) (id : Nat) : CancelResult × DB :=
  match findBooking db id with
  | none => (.notFound, db)
  | some booking =>
    if booking.status = .cancelled then (.alreadyCancelled, db)
    else
      let nowDay := truncDay now
      let bookingDay := truncDay booking.date
      if bookingDay < nowDay then (.pastDate, db)
      else
        let saved := preSave { booking with status := .cancelled }
        let bookings1 := db.bookings.map (fun b => if b.id = id then saved else b)
        let entries1 := markSlotOpt saved.date (effTime saved) true none db.slotEntries
        (.success, { db with bookings := bookings1, slotEntries := entries1 })

/-- The body of a status-update request (`PATCH /api/bookings/:id`). -/
structure UpdateReq where
  status : BStatus
  notes : Option String
deriving DecidableEq, Repr

/-- The Joi `updateBookingSchema` check on notes (status membership is
enforced by the `BStatus` type). -/
def updateNotesOk (req : UpdateReq) : Bool :=
  match req.notes with
  | none => true
  | some n => decide (n.length ≤ 500)

/-- The kinds of outbound WhatsApp notifications the controllers attempt. -/
inductive NotifKind where
  | confirmation
  | cancellation
  | completion
deriving DecidableEq, Repr

/-- The notes handling of updateBooking: `if (notes !== undefined)` the
stored notes are overwritten, otherwise kept. -/
def mergeNotes (reqNotes old : Option String) : Option String :=
  match reqNotes with
  | some n => some n
  | none => old

/-- Outcomes of updateBooking. -/
inductive UpdateResult where
  | validationErr
  | notFound
  | updated (b : Booking)
deriving DecidableEq, Repr

/-- Result record of updateBooking: the outcome, the new state, and the
notification attempts in dispatch order. -/
structure UpdateOut where
  result : UpdateResult
  db : DB
  notifs : List NotifKind
deriving DecidableEq, Repr

/-- updateBooking of `controllers/bookingController.js`: validate, findById,
save the new status (and notes when given) through the pre-save hook, then
release the TimeSlot row only on a transition into cancelled, and attempt
one notification per actual transition into cancelled, confirmed or
completed, each guarded by the Twilio configuration flag. -/
def updateBooking (db : DB) (twilioOn : Bool) (id : Nat) (req : UpdateReq) : UpdateOut :=
  if updateNotesOk req then
    match findBooking db id with
    | none => ⟨.notFound, db, []⟩
    | some booking =>
      let oldStatus := booking.status
      let saved := preSave { booking with
        status := req.status
        notes := mergeNotes req.notes booking.notes }
      let bookings1 := db.bookings.map (fun b => if b.id = id then saved else b)
      let entries1 :=
        if req.status = .cancelled ∧ oldStatus ≠ .cancelled then
          markSlotOpt saved.date (effTime saved) true none db.slotEntries
        else db.slotEntries
      let notifs :=
        (if req.status = .cancelled ∧ oldStatus ≠ .cancelled ∧ twilioOn = true then
          [NotifKind.cancellation] else []) ++
        (if req.status = .confirmed ∧ oldStatus ≠ .confirmed ∧ twilioOn = true then
          [NotifKind.confirmation] else []) ++
        (if req.status = .completed ∧ oldStatus ≠ .completed ∧ twilioOn = true then
          [NotifKind.completion] else [])
      ⟨.updated saved, { db with bookings := bookings1, slotEntries := entries1 }, notifs⟩
  else ⟨.validationErr, db, []⟩

/-- Outcomes of deleteBooking. -/
inductive DeleteResult where
  | notFound
  | deleted
deriving DecidableEq, Repr

/-- deleteBooking of `controllers/bookingController.js`: findById, release
the TimeSlot row using the booking's date and effective time, then remove
the record. -/
def deleteBooking (db : DB) (id : Nat) : DeleteResult × DB :=
  match findBooking db id with
  | none => (.notFound, db)
  | some booking =>
    let entries1 := markSlotOpt booking.date (effTime booking) true none db.slotEntries
    let bookings1 := db.bookings.filter (fun b => decide (b.id ≠ id))
    (.deleted, { db with bookings := bookings1, slotEntries := entries1 })

/-- The default slot generator of `controllers/timeSlotController.js`:
ten rows with labels 9:00 AM through 18:00 AM, all available. -/
def defaultSlots : List Slot :=
  (List.range 10).map (fun i => { time := toString (9 + i) ++ ":00 AM", available := true, bookedBy := none })

/-- getTimeSlots of `controllers/timeSlotController.js`: return the stored
document for the date, or materialize, persist and return the default
slots. -/
def getTimeSlots (db : DB) (d : Nat) : List Slot × DB :=
  match findSlotEntry db.slotEntries d with
  | some e => (e.slots, db)
  | none =>
    let entry : SlotEntry := { date := d, slots := defaultSlots }
    (defaultSlots, { db with slotEntries := db.slotEntries ++ [entry] })

/-! ### Helper lemmas -/

theorem truncDay_mono {a b : Nat} (h : a ≤ b) : truncDay a ≤ truncDay b := by
  simp only [truncDay, msPerDay]
  omega

theorem preSave_id (b : Booking) : (preSave b).id = b.id := by
  unfold preSave; split_ifs <;> rfl

theorem preSave_date (b : Booking) : (preSave b).date = b.date := by
  unfold preSave; split_ifs <;> rfl

theorem preSave_status (b : Booking) : (preSave b).status = b.status := by
  unfold preSave; split_ifs <;> rfl

theorem preSave_of_both {b : Booking} (ht : b.time.isSome = true)
    (hs : b.timeSlot.isSome = true) : preSave b = b := by
  unfold preSave
  cases hx : b.time <;> cases hy : b.timeSlot <;> simp_all

theorem preSave_some_iff (b : Booking) :
    ((preSave b).time.isSome = true → (preSave b).timeSlot.isSome = true) ∧
    ((preSave b).timeSlot.isSome = true → (preSave b).time.isSome = true) := by
  unfold preSave
  cases hx : b.time <;> cases hy : b.timeSlot <;> simp_all

theorem joiValidate_date_le {now : Nat} {req : CreateReq}
    (h : joiValidate now req = true) : now ≤ req.date := by
  unfold joiValidate joiDateOk at h
  simp [Bool.and_eq_true] at h
  exact h.2

theorem joiRestOk_selTime {req : CreateReq} (h : joiRestOk req = true) :
    ∃ t, selTime req = some t := by
  unfold joiRestOk at h
  simp only [Bool.and_eq_true] at h
  unfold selTime
  cases hts : req.timeSlot with
  | some t => exact ⟨t, rfl⟩
  | none =>
      cases htt : req.time with
      | some t => exact ⟨t, rfl⟩
      | none => rw [hts, htt] at h; simp at h

theorem getD_confirmed_ne_cancelled {o : Option BStatus}
    (h : o ≠ some .cancelled) : o.getD .confirmed ≠ .cancelled := by
  cases o <;> simp_all

theorem find?_map_replace (id : Nat) (saved : Booking) (hs : saved.id = id) :
    ∀ l : List Booking, (l.find? (fun x => decide (x.id = id))).isSome = true →
      (l.map (fun x => if x.id = id then saved else x)).find?
        (fun x => decide (x.id = id)) = some saved
  | [], h => by simp [List.find?] at h
  | x :: rest, h => by
      by_cases hx : x.id = id
      · simp [List.find?_cons, hx, hs]
      · rw [List.map_cons, if_neg hx, List.find?_cons] at *
        simp only [List.find?_cons, hx, decide_False] at h ⊢
        exact find?_map_replace id saved hs rest (by simpa using h)

theorem createBooking_created_inv {db : DB} {now : Nat} {req : CreateReq}
    {b : Booking} {db1 : DB}
    (h : createBooking db now req = (.created b, db1)) :
    ∃ st, joiValidate now req = true ∧ selTime req = some st ∧
      ¬ truncDay req.date < truncDay now ∧
      boardConflict db (truncDay req.date) st = false ∧
      hasLedgerConflict db (truncDay req.date) st = false ∧
      uniqueIndexViolation db (truncDay req.date) st = false ∧
      b = { id := db.nextId, name := strTrim req.name, phone := req.phone,
            service := strTrim req.service, date := truncDay req.date,
            time := some st, timeSlot := some st,
            status := req.status.getD .confirmed, notes := normNotes req.notes } ∧
      db1 = { bookings := db.bookings ++ [b],
              slotEntries := markSlot (truncDay req.date) st false (some db.nextId)
                db.slotEntries,
              nextId := db.nextId + 1 } := by
  unfold createBooking at h
  split at h
  case isFalse hv => simp at h
  case isTrue hv =>
    cases hsel : selTime req with
    | none => rw [hsel] at h; simp at h
    | some st =>
        rw [hsel] at h
        simp only [] at h
        split at h
        case isTrue hpast => simp at h
        case isFalse hpast =>
          split at h
          case isTrue hbc => simp at h
          case isFalse hbc =>
            split at h
            case isTrue hlc => simp at h
            case isFalse hlc =>
              split at h
              case isTrue hui => simp at h
              case isFalse hui =>
                simp only [Prod.mk.injEq, CreateResult.created.injEq] at h
                obtain ⟨hb, hdb⟩ := h
                have hps : preSave
                    { id := db.nextId, name := strTrim req.name, phone := req.phone,
                      service := strTrim req.service, date := truncDay req.date,
                      time := some st, timeSlot := some st,
                      status := req.status.getD .confirmed,
                      notes := normNotes req.notes } =
                    { id := db.nextId, name := strTrim req.name, phone := req.phone,
                      service := strTrim req.service, date := truncDay req.date,
                      time := some st, timeSlot := some st,
                      status := req.status.getD .confirmed,
                      notes := normNotes req.notes } := by
                  unfold preSave; simp
                subst hb
                subst hdb
                refine ⟨st, hv, rfl, hpast, by simpa using hbc,
                  by simpa using hlc, by simpa using hui, ?_, ?_⟩
                · rw [hps]
                · rw [hps]

theorem updateBooking_updated_inv {db : DB} {tw : Bool} {id : Nat}
    {req : UpdateReq} {b : Booking} {db1 : DB} {ns : List NotifKind}
    (h : updateBooking db tw id req = ⟨.updated b, db1, ns⟩) :
    ∃ x, b = preSave x := by
  unfold updateBooking at h
  split at h
  case isFalse => simp at h
  case isTrue =>
    cases hf : findBooking db id with
    | none => rw [hf] at h; simp at h
    | some booking =>
        rw [hf] at h
        simp only [UpdateOut.mk.injEq, UpdateResult.updated.injEq] at h
        exact ⟨_, h.1.symm⟩

theorem getTimeSlots_of_found {db : DB} {d : Nat} {e : SlotEntry}
    (h : findSlotEntry db.slotEntries d = some e) :
    getTimeSlots db d = (e.slots, db) := by
  unfold getTimeSlots; rw [h]

theorem getTimeSlots_of_missing {db : DB} {d : Nat}
    (h : findSlotEntry db.slotEntries d = none) :
    getTimeSlots db d =
      (defaultSlots, { db with slotEntries := db.slotEntries ++ [⟨d, defaultSlots⟩] }) := by
  unfold getTimeSlots; rw [h]

/-! ### Claim theorems -/

/-- C3: on every Booking write the pre-save hook keeps `time` and `timeSlot`
in sync: if `time` is set and `timeSlot` absent, `timeSlot` is copied from
`time`; if `timeSlot` is set and `time` absent, `time` is copied from
`timeSlot`; if both are set, both are stored as given. Consequently a
booking returned by a successful create carries both fields equal to the
single selected value, and a booking persisted by the status update has
both fields non-empty as soon as it has either. -/
theorem time_timeSlot_sync_invariant :
    (∀ b : Booking, b.time.isSome = true → b.timeSlot = none →
      (preSave b).timeSlot = b.time ∧ (preSave b).time = b.time) ∧
    (∀ b : Booking, b.timeSlot.isSome = true → b.time = none →
      (preSave b).time = b.timeSlot ∧ (preSave b).timeSlot = b.timeSlot) ∧
    (∀ b : Booking, b.time.isSome = true → b.timeSlot.isSome = true →
      preSave b = b) ∧
    (∀ (db : DB) (now : Nat) (req : CreateReq) (b : Booking) (db1 : DB),
      createBooking db now req = (.created b, db1) →
      ∃ st, selTime req = some st ∧ b.time = some st ∧ b.timeSlot = some st) ∧
    (∀ (db : DB) (tw : Bool) (id : Nat) (req : UpdateReq) (b : Booking)
      (db1 : DB) (ns : List NotifKind),
      updateBooking db tw id req = ⟨.updated b, db1, ns⟩ →
      (b.time.isSome = true ∨ b.timeSlot.isSome = true) →
      b.time.isSome = true ∧ b.timeSlot.isSome = true) := by
  refine ⟨?_, ?_, ?_, ?_, ?_⟩
  · intro b ht hs
    unfold preSave
    simp [ht, hs]
  · intro b hs ht
    unfold preSave
    simp [ht, hs]
  · intro b ht hs
    exact preSave_of_both ht hs
  · intro db now req b db1 h
    obtain ⟨st, -, hsel, -, -, -, -, hb, -⟩ := createBooking_created_inv h
    exact ⟨st, hsel, by rw [hb], by rw [hb]⟩
  · intro db tw id req b db1 ns h hone
    obtain ⟨x, hx⟩ := updateBooking_updated_inv h
    subst hx
    rcases hone with h1 | h1
    · exact ⟨h1, (preSave_some_iff x).1 h1⟩
    · exact ⟨(preSave_some_iff x).2 h1, h1⟩

/-- Witness for C3: the hook fills in `timeSlot` on a booking that only
carries `time`. -/
theorem time_timeSlot_sync_invariant_witness :
    (preSave ⟨1, "aa", "0123456789", "cut", 0, some "10:00", none,
      .confirmed, none⟩).timeSlot = some "10:00" ∧
    (preSave ⟨1, "aa", "0123456789", "cut", 0, some "10:00", none,
      .confirmed, none⟩).time = some "10:00" :=
  time_timeSlot_sync_invariant.1
    ⟨1, "aa", "0123456789", "cut", 0, some "10:00", none, .confirmed, none⟩ rfl rfl

/-- C4: cancel applies its checks in order: NotFound iff no booking with
the id exists; otherwise AlreadyCancelled iff the stored status is
cancelled; otherwise PastDate iff the day-truncated booking date is
strictly before today; otherwise success, persisting status cancelled.
AlreadyCancelled and PastDate are dedicated outcomes, distinct from any
generic failure. -/
theorem cancel_error_taxonomy (db : DB) (now id : Nat) :
    ((cancelBooking db now id).1 = .notFound ↔ findBooking db id = none) ∧
    (∀ b, findBooking db id = some b →
      (((cancelBooking db now id).1 = .alreadyCancelled) ↔ b.status = .cancelled) ∧
      (b.status ≠ .cancelled →
        (((cancelBooking db now id).1 = .pastDate) ↔
          truncDay b.date < truncDay now)) ∧
      (b.status ≠ .cancelled → ¬ truncDay b.date < truncDay now →
        (cancelBooking db now id).1 = .success ∧
        ∃ b1, findBooking (cancelBooking db now id).2 id = some b1 ∧
          b1.status = .cancelled)) := by
  unfold cancelBooking
  cases hf : findBooking db id with
  | none => simp
  | some b0 =>
      have hf' : db.bookings.find? (fun x => decide (x.id = id)) = some b0 := hf
      have hid : b0.id = id := by
        have := List.find?_some hf'
        simpa using this
      simp only [hf]
      by_cases hc : b0.status = BStatus.cancelled
      · rw [if_pos hc]
        refine ⟨by simp, ?_⟩
        intro b hb
        obtain rfl : b0 = b := Option.some_inj.mp hb
        refine ⟨by simp [hc], ?_, ?_⟩
        · intro hne; exact absurd hc hne
        · intro hne; exact absurd hc hne
      · rw [if_neg hc]
        by_cases hp : truncDay b0.date < truncDay now
        · rw [if_pos hp]
          refine ⟨by simp, ?_⟩
          intro b hb
          obtain rfl : b0 = b := Option.some_inj.mp hb
          refine ⟨by simp [hc], by simp [hp], ?_⟩
          intro _ hnp; exact absurd hp hnp
        · rw [if_neg hp]
          refine ⟨by simp, ?_⟩
          intro b hb
          obtain rfl : b0 = b := Option.some_inj.mp hb
          refine ⟨by simp [hc], by simp [hp], ?_⟩
          intro _ _
          refine ⟨rfl, preSave { b0 with status := .cancelled }, ?_, ?_⟩
          · exact find?_map_replace id (preSave { b0 with status := .cancelled })
              (by rw [preSave_id]; exact hid) db.bookings (by rw [hf']; rfl)
          · rw [preSave_status]

/-- Witness for C4: cancelling an already-cancelled booking yields the
AlreadyCancelled outcome. -/
theorem cancel_error_taxonomy_witness :
    (cancelBooking ⟨[⟨5, "aa", "0123456789", "cut", 0, some "10:00",
      some "10:00", .cancelled, none⟩], [], 6⟩ 0 5).1 = .alreadyCancelled :=
  (((cancel_error_taxonomy ⟨[⟨5, "aa", "0123456789", "cut", 0, some "10:00",
      some "10:00", .cancelled, none⟩], [], 6⟩ 0 5).2
    ⟨5, "aa", "0123456789", "cut", 0, some "10:00", some "10:00",
      .cancelled, none⟩ rfl).1).mpr rfl

/-- C8: querying the slot board for a date with no stored entry returns
the deterministic default slot sequence, all available, and persists it;
a repeat query for the same date returns the persisted sequence and
leaves the state unchanged. -/
theorem slot_board_lazy_materialization (db : DB) (d : Nat)
    (h : findSlotEntry db.slotEntries d = none) :
    (getTimeSlots db d).1 = defaultSlots ∧
    (∀ s ∈ (getTimeSlots db d).1, s.available = true) ∧
    findSlotEntry (getTimeSlots db d).2.slotEntries d = some ⟨d, defaultSlots⟩ ∧
    (getTimeSlots (getTimeSlots db d).2 d).1 = (getTimeSlots db d).1 ∧
    (getTimeSlots (getTimeSlots db d).2 d).2 = (getTimeSlots db d).2 := by
  have havail : ∀ s ∈ defaultSlots, s.available = true := by
    intro s hs
    simp only [defaultSlots, List.mem_map] at hs
    obtain ⟨i, -, rfl⟩ := hs
    rfl
  have h1 := getTimeSlots_of_missing h
  have hfind : findSlotEntry
      (db.slotEntries ++ [⟨d, defaultSlots⟩]) d = some ⟨d, defaultSlots⟩ := by
    unfold findSlotEntry at h ⊢
    rw [List.find?_append, h]
    simp [List.find?]
  have h2 : findSlotEntry (getTimeSlots db d).2.slotEntries d
      = some ⟨d, defaultSlots⟩ := by
    rw [h1]; exact hfind
  have h3 := getTimeSlots_of_found h2
  rw [h1] at h2 h3 ⊢
  exact ⟨rfl, havail, h2, by rw [h3], by rw [h3]⟩

/-- Witness for C8: first query on an empty store materializes the default
slots; the second query returns them unchanged. -/
theorem slot_board_lazy_materialization_witness :
    (getTimeSlots ⟨[], [], 0⟩ 0).1 = defaultSlots ∧
    findSlotEntry (getTimeSlots ⟨[], [], 0⟩ 0).2.slotEntries 0
      = some ⟨0, defaultSlots⟩ ∧
    (getTimeSlots (getTimeSlots ⟨[], [], 0⟩ 0).2 0).1
      = (getTimeSlots ⟨[], [], 0⟩ 0).1 ∧
    (getTimeSlots (getTimeSlots ⟨[], [], 0⟩ 0).2 0).2
      = (getTimeSlots ⟨[], [], 0⟩ 0).2 :=
  ⟨(slot_board_lazy_materialization ⟨[], [], 0⟩ 0 rfl).1,
   (slot_board_lazy_materialization ⟨[], [], 0⟩ 0 rfl).2.2.1,
   (slot_board_lazy_materialization ⟨[], [], 0⟩ 0 rfl).2.2.2.1,
   (slot_board_lazy_materialization ⟨[], [], 0⟩ 0 rfl).2.2.2.2⟩

theorem defaultSlots_eq :
    defaultSlots =
      [⟨"9:00 AM", true, none⟩, ⟨"10:00 AM", true, none⟩, ⟨"11:00 AM", true, none⟩,
       ⟨"12:00 AM", true, none⟩, ⟨"13:00 AM", true, none⟩, ⟨"14:00 AM", true, none⟩,
       ⟨"15:00 AM", true, none⟩, ⟨"16:00 AM", true, none⟩, ⟨"17:00 AM", true, none⟩,
       ⟨"18:00 AM", true, none⟩] := by
  rfl

theorem isHHMM_toList_length {t : String} (h : isHHMM t = true) :
    t.toList.length = 5 := by
  unfold isHHMM at h
  split at h
  · rename_i heq
    rw [heq]
    rfl
  · exact absurd h (by simp)

theorem default_find_none {t : String} (h : isHHMM t = true) :
    defaultSlots.find? (slotTimeMatches t) = none := by
  rw [List.find?_eq_none]
  intro s hs
  rw [defaultSlots_eq] at hs
  have hlen := isHHMM_toList_length h
  simp only [List.mem_cons, List.not_mem_nil, or_false] at hs
  rcases hs with rfl | rfl | rfl | rfl | rfl | rfl | rfl | rfl | rfl | rfl <;>
    · simp only [slotTimeMatches, decide_eq_true_eq]
      intro heq
      rw [← heq] at hlen
      exact absurd hlen (by decide)

theorem default_any_false {t : String} (h : isHHMM t = true) :
    defaultSlots.any (slotTimeMatches t) = false := by
  rw [List.any_eq_false]
  intro s hs
  have hnone := default_find_none h
  rw [List.find?_eq_none] at hnone
  exact hnone s hs

theorem markSlot_noop_default {t : String} (h : isHHMM t = true) :
    ∀ (entries : List SlotEntry) (d : Nat) (av : Bool) (bid : Option Nat),
      (∀ e ∈ entries, e.slots = defaultSlots) →
      markSlot d t av bid entries = entries
  | [], _, _, _, _ => rfl
  | e :: rest, d, av, bid, hall => by
      have he : e.slots = defaultSlots := hall e (by simp)
      have hm : entryMatches d t e = false := by
        unfold entryMatches
        rw [he, default_any_false h, Bool.and_false]
      unfold markSlot
      rw [hm]
      simp only [Bool.false_eq_true, if_false]
      rw [markSlot_noop_default h rest d av bid
        (fun x hx => hall x (List.mem_cons_of_mem e hx))]

/-- C9: every slot label of the default generator is of the form 9:00 AM
through 18:00 AM, none of which matches the HH:MM pattern of booking
times; hence on a default board entry the create conflict check never
fires for a pattern-valid time, and the positional slot updates leave a
store of default entries unchanged. -/
theorem default_slots_disjoint_from_hhmm :
    defaultSlots.map Slot.time =
      ["9:00 AM", "10:00 AM", "11:00 AM", "12:00 AM", "13:00 AM",
       "14:00 AM", "15:00 AM", "16:00 AM", "17:00 AM", "18:00 AM"] ∧
    (∀ s ∈ defaultSlots, isHHMM s.time = false) ∧
    (∀ t, isHHMM t = true → defaultSlots.find? (slotTimeMatches t) = none) ∧
    (∀ (db : DB) (d : Nat) (t : String),
      findSlotEntry db.slotEntries d = some ⟨d, defaultSlots⟩ →
      isHHMM t = true → boardConflict db d t = false) ∧
    (∀ (entries : List SlotEntry) (d : Nat) (t : String) (av : Bool)
      (bid : Option Nat),
      (∀ e ∈ entries, e.slots = defaultSlots) → isHHMM t = true →
      markSlot d t av bid entries = entries) := by
  refine ⟨by rw [defaultSlots_eq]; rfl, ?_, ?_, ?_, ?_⟩
  · intro s hs
    rw [defaultSlots_eq] at hs
    simp only [List.mem_cons, List.not_mem_nil, or_false] at hs
    rcases hs with rfl | rfl | rfl | rfl | rfl | rfl | rfl | rfl | rfl | rfl <;> rfl
  · intro t ht
    exact default_find_none ht
  · intro db d t hf ht
    unfold boardConflict
    rw [hf]
    simp only [default_find_none ht]
  · intro entries d t av bid hall ht
    exact markSlot_noop_default ht entries d av bid hall

/-- Witness for C9: the HH:MM time 10:00 matches no default slot label,
and the positional update at 10:00 leaves a default entry untouched. -/
theorem default_slots_disjoint_from_hhmm_witness :
    defaultSlots.find? (slotTimeMatches "10:00") = none ∧
    markSlot 0 "10:00" false (some 3) [⟨0, defaultSlots⟩] = [⟨0, defaultSlots⟩] :=
  ⟨default_slots_disjoint_from_hhmm.2.2.1 "10:00" rfl,
   default_slots_disjoint_from_hhmm.2.2.2.2 [⟨0, defaultSlots⟩] 0 "10:00"
     false (some 3) (by intro e he; simp at he; rw [he]) rfl⟩

theorem updateFirstSlot_find?_state (t : String) (av : Bool) (bid : Option Nat) :
    ∀ (slots : List Slot) (s1 : Slot),
      (updateFirstSlot t (setSlotState av bid) slots).find? (slotTimeMatches t)
        = some s1 →
      s1.available = av ∧ s1.bookedBy = bid
  | [], s1 => by
      intro h
      simp [updateFirstSlot, List.find?] at h
  | s :: rest, s1 => by
      intro h
      unfold updateFirstSlot at h
      by_cases hst : s.time = t
      · rw [if_pos hst, List.find?_cons] at h
        have hmatch : slotTimeMatches t (setSlotState av bid s) = true := by
          simp [slotTimeMatches, setSlotState, hst]
        rw [hmatch] at h
        obtain rfl : setSlotState av bid s = s1 := Option.some_inj.mp h
        exact ⟨rfl, rfl⟩
      · rw [if_neg hst, List.find?_cons] at h
        have hmatch : slotTimeMatches t s = false := by
          simp [slotTimeMatches, hst]
        rw [hmatch] at h
        exact updateFirstSlot_find?_state t av bid rest s1 h

theorem markSlot_release (t : String) (av : Bool) (bid : Option Nat) :
    ∀ (entries : List SlotEntry) (d : Nat) (e : SlotEntry),
      findSlotEntry (markSlot d t av bid entries) d = some e →
      ∀ s, e.slots.find? (slotTimeMatches t) = some s →
      s.available = av ∧ s.bookedBy = bid
  | [], d, e => by
      intro h
      simp [markSlot, findSlotEntry, List.find?] at h
  | e0 :: rest, d, e => by
      intro h s hs
      unfold markSlot at h
      by_cases hm : entryMatches d t e0 = true
      · rw [if_pos hm] at h
        unfold findSlotEntry at h
        rw [List.find?_cons] at h
        have hm' := hm
        unfold entryMatches at hm'
        simp only [Bool.and_eq_true, decide_eq_true_eq] at hm'
        have hpred : (decide
            (({ e0 with slots := updateFirstSlot t (setSlotState av bid) e0.slots }
              : SlotEntry).date = d)) = true := by
          simp [hm'.1]
        rw [hpred] at h
        obtain rfl := Option.some_inj.mp h
        exact updateFirstSlot_find?_state t av bid e0.slots s hs
      · rw [if_neg hm] at h
        unfold findSlotEntry at h
        rw [List.find?_cons] at h
        by_cases hd : e0.date = d
        · have hpred : decide (e0.date = d) = true := by simp [hd]
          rw [hpred] at h
          obtain rfl := Option.some_inj.mp h
          have hany : e0.slots.any (slotTimeMatches t) = false := by
            cases hq : e0.slots.any (slotTimeMatches t) with
            | false => rfl
            | true =>
                exfalso
                apply hm
                unfold entryMatches
                rw [hq]
                simp [hd]
          rw [List.any_eq_false] at hany
          exact absurd (List.find?_some hs)
            (hany s (List.mem_of_find?_eq_some hs))
        · have hpred : decide (e0.date = d) = false := by simp [hd]
          rw [hpred] at h
          exact markSlot_release t av bid rest d e h s hs

/-- C6: deleting an existing booking removes its record and releases the
matching slot row first: in the resulting state, the slot-board entry
found for the booking's date has its first row carrying the booking's
effective time marked available with the back-reference cleared,
regardless of the booking's status. -/
theorem delete_releases_slot (db : DB) (id : Nat) (b : Booking)
    (hb : findBooking db id = some b) :
    (deleteBooking db id).1 = .deleted ∧
    (∀ x ∈ (deleteBooking db id).2.bookings, x.id ≠ id) ∧
    (∀ t, effTime b = some t →
      ∀ e, findSlotEntry (deleteBooking db id).2.slotEntries b.date = some e →
      ∀ s, e.slots.find? (slotTimeMatches t) = some s →
      s.available = true ∧ s.bookedBy = none) := by
  have hdel : deleteBooking db id =
      (.deleted, { db with
        bookings := db.bookings.filter (fun x => decide (x.id ≠ id)),
        slotEntries := markSlotOpt b.date (effTime b) true none db.slotEntries }) := by
    unfold deleteBooking
    rw [hb]
  rw [hdel]
  refine ⟨rfl, ?_, ?_⟩
  · intro x hx
    have := List.of_mem_filter hx
    simpa using this
  · intro t ht e he s hs
    rw [show markSlotOpt b.date (effTime b) true none db.slotEntries
        = markSlot b.date t true none db.slotEntries from by rw [ht]; rfl] at he
    exact markSlot_release t true none db.slotEntries b.date e he s hs

/-- Witness for C6: deleting the booking at 10:00 on day 0 flips the
matching slot row back to available. -/
theorem delete_releases_slot_witness :
    (deleteBooking ⟨[⟨7, "aa", "0123456789", "cut", 0, some "10:00",
      some "10:00", .confirmed, none⟩],
      [⟨0, [⟨"10:00", false, some 7⟩]⟩], 8⟩ 7).1 = .deleted ∧
    (⟨"10:00", true, none⟩ : Slot).available = true ∧
    (⟨"10:00", true, none⟩ : Slot).bookedBy = none :=
  have h := delete_releases_slot ⟨[⟨7, "aa", "0123456789", "cut", 0,
    some "10:00", some "10:00", .confirmed, none⟩],
    [⟨0, [⟨"10:00", false, some 7⟩]⟩], 8⟩ 7
    ⟨7, "aa", "0123456789", "cut", 0, some "10:00", some "10:00",
      .confirmed, none⟩ rfl
  ⟨h.1, h.2.2 "10:00" rfl ⟨0, [⟨"10:00", true, none⟩]⟩ (by decide)
    ⟨"10:00", true, none⟩ (by decide)⟩

theorem updateBooking_found {db : DB} {tw : Bool} {id : Nat} {req : UpdateReq}
    {b : Booking} (hb : findBooking db id = some b)
    (hn : updateNotesOk req = true) :
    updateBooking db tw id req =
      ⟨.updated (preSave { b with status := req.status, notes := mergeNotes req.notes b.notes }),
       { db with
         bookings := db.bookings.map (fun x => if x.id = id then
           preSave { b with status := req.status, notes := mergeNotes req.notes b.notes }
           else x),
         slotEntries :=
           if req.status = .cancelled ∧ b.status ≠ .cancelled then
             markSlotOpt (preSave { b with status := req.status, notes := mergeNotes req.notes b.notes }).date
               (effTime (preSave { b with status := req.status, notes := mergeNotes req.notes b.notes }))
               true none db.slotEntries
           else db.slotEntries },
       (if req.status = .cancelled ∧ b.status ≠ .cancelled ∧ tw = true then
         [NotifKind.cancellation] else []) ++
       (if req.status = .confirmed ∧ b.status ≠ .confirmed ∧ tw = true then
         [NotifKind.confirmation] else []) ++
       (if req.status = .completed ∧ b.status ≠ .completed ∧ tw = true then
         [NotifKind.completion] else [])⟩ := by
  unfold updateBooking
  rw [if_pos hn, hb]

/-- C7: in the status update with Twilio configured, notifications are
attempted only on an actual transition: writing the same status back
yields zero attempts while still persisting the write; a transition into
cancelled, confirmed or completed yields exactly one attempt of the
corresponding kind; and the slot-board state is modified only on a
transition into cancelled from a non-cancelled state. -/
theorem update_notifications_on_transition (db : DB) (id : Nat)
    (req : UpdateReq) (b : Booking)
    (hb : findBooking db id = some b) (hn : updateNotesOk req = true) :
    (∃ b1, findBooking (updateBooking db true id req).db id = some b1 ∧
      b1.status = req.status) ∧
    (req.status = b.status → (updateBooking db true id req).notifs = []) ∧
    (req.status = .cancelled → b.status ≠ .cancelled →
      (updateBooking db true id req).notifs = [.cancellation]) ∧
    (req.status = .confirmed → b.status ≠ .confirmed →
      (updateBooking db true id req).notifs = [.confirmation]) ∧
    (req.status = .completed → b.status ≠ .completed →
      (updateBooking db true id req).notifs = [.completion]) ∧
    (¬(req.status = .cancelled ∧ b.status ≠ .cancelled) →
      (updateBooking db true id req).db.slotEntries = db.slotEntries) := by
  have hf' : db.bookings.find? (fun x => decide (x.id = id)) = some b := hb
  have hbid : b.id = id := by simpa using List.find?_some hf'
  rw [updateBooking_found hb hn]
  refine ⟨?_, ?_, ?_, ?_, ?_, ?_⟩
  · refine ⟨preSave { b with status := req.status, notes := mergeNotes req.notes b.notes },
      ?_, ?_⟩
    · exact find?_map_replace id _ (by rw [preSave_id]; exact hbid)
        db.bookings (by rw [hf']; rfl)
    · rw [preSave_status]
  · intro hsame
    have h1 : ¬(req.status = BStatus.cancelled ∧
        b.status ≠ BStatus.cancelled ∧ true = true) := by
      rintro ⟨h1, h2, -⟩
      exact h2 (by rw [← hsame]; exact h1)
    have h2 : ¬(req.status = BStatus.confirmed ∧
        b.status ≠ BStatus.confirmed ∧ true = true) := by
      rintro ⟨h1, h2, -⟩
      exact h2 (by rw [← hsame]; exact h1)
    have h3 : ¬(req.status = BStatus.completed ∧
        b.status ≠ BStatus.completed ∧ true = true) := by
      rintro ⟨h1, h2, -⟩
      exact h2 (by rw [← hsame]; exact h1)
    rw [if_neg h1, if_neg h2, if_neg h3]
    rfl
  · intro hc hbc
    have h2 : ¬(req.status = BStatus.confirmed ∧
        b.status ≠ BStatus.confirmed ∧ true = true) := by
      rintro ⟨h1, -, -⟩
      rw [hc] at h1
      exact BStatus.noConfusion h1
    have h3 : ¬(req.status = BStatus.completed ∧
        b.status ≠ BStatus.completed ∧ true = true) := by
      rintro ⟨h1, -, -⟩
      rw [hc] at h1
      exact BStatus.noConfusion h1
    rw [if_pos (And.intro hc (And.intro hbc rfl)), if_neg h2, if_neg h3]
    rfl
  · intro hc hbc
    have h1 : ¬(req.status = BStatus.cancelled ∧
        b.status ≠ BStatus.cancelled ∧ true = true) := by
      rintro ⟨h1, -, -⟩
      rw [hc] at h1
      exact BStatus.noConfusion h1
    have h3 : ¬(req.status = BStatus.completed ∧
        b.status ≠ BStatus.completed ∧ true = true) := by
      rintro ⟨h1, -, -⟩
      rw [hc] at h1
      exact BStatus.noConfusion h1
    rw [if_neg h1, if_pos (And.intro hc (And.intro hbc rfl)), if_neg h3]
    rfl
  · intro hc hbc
    have h1 : ¬(req.status = BStatus.cancelled ∧
        b.status ≠ BStatus.cancelled ∧ true = true) := by
      rintro ⟨h1, -, -⟩
      rw [hc] at h1
      exact BStatus.noConfusion h1
    have h2 : ¬(req.status = BStatus.confirmed ∧
        b.status ≠ BStatus.confirmed ∧ true = true) := by
      rintro ⟨h1, -, -⟩
      rw [hc] at h1
      exact BStatus.noConfusion h1
    rw [if_neg h1, if_neg h2, if_pos (And.intro hc (And.intro hbc rfl))]
    rfl
  · intro hnc
    rw [if_neg hnc]

/-- Witness for C7: completing a pending booking attempts exactly one
completion notification. -/
theorem update_notifications_on_transition_witness :
    (updateBooking ⟨[⟨3, "aa", "0123456789", "cut", 0, some "10:00",
      some "10:00", .pending, none⟩], [], 4⟩ true 3
      ⟨.completed, none⟩).notifs = [.completion] :=
  (update_notifications_on_transition ⟨[⟨3, "aa", "0123456789", "cut", 0,
    some "10:00", some "10:00", .pending, none⟩], [], 4⟩ 3
    ⟨.completed, none⟩ ⟨3, "aa", "0123456789", "cut", 0, some "10:00",
    some "10:00", .pending, none⟩ rfl rfl).2.2.2.2.1 rfl
    (by intro h; exact BStatus.noConfusion h)

/-- C10: the status update applies no AlreadyCancelled and no PastDate
check: for any existing booking, even one already cancelled or dated
strictly before today, an update to cancelled succeeds and persists
status cancelled, while the dedicated cancel endpoint rejects the same
booking with AlreadyCancelled or PastDate respectively; in the
already-cancelled case the update releases no slot and attempts no
notification. -/
theorem update_bypasses_cancel_guards (db : DB) (tw : Bool) (now id : Nat)
    (req : UpdateReq) (b : Booking)
    (hb : findBooking db id = some b) (hst : req.status = .cancelled)
    (hn : updateNotesOk req = true) :
    (∃ b1, (updateBooking db tw id req).result = .updated b1 ∧
      b1.status = .cancelled) ∧
    (∃ b1, findBooking (updateBooking db tw id req).db id = some b1 ∧
      b1.status = .cancelled) ∧
    (b.status = .cancelled →
      (cancelBooking db now id).1 = .alreadyCancelled ∧
      (updateBooking db tw id req).db.slotEntries = db.slotEntries ∧
      (updateBooking db tw id req).notifs = []) ∧
    (b.status ≠ .cancelled → truncDay b.date < truncDay now →
      (cancelBooking db now id).1 = .pastDate) := by
  have hf' : db.bookings.find? (fun x => decide (x.id = id)) = some b := hb
  have hbid : b.id = id := by simpa using List.find?_some hf'
  have hcanc := cancel_error_taxonomy db now id
  rw [updateBooking_found hb hn]
  refine ⟨?_, ?_, ?_, ?_⟩
  · exact ⟨_, rfl, by rw [preSave_status, hst]⟩
  · refine ⟨preSave { b with status := req.status, notes := mergeNotes req.notes b.notes },
      ?_, ?_⟩
    · exact find?_map_replace id _ (by rw [preSave_id]; exact hbid)
        db.bookings (by rw [hf']; rfl)
    · rw [preSave_status, hst]
  · intro hbc
    refine ⟨((hcanc.2 b hb).1).mpr hbc, ?_, ?_⟩
    · have hnc : ¬(req.status = BStatus.cancelled ∧
          b.status ≠ BStatus.cancelled) := by
        rintro ⟨-, h2⟩
        exact h2 hbc
      rw [if_neg hnc]
    · have h1 : ¬(req.status = BStatus.cancelled ∧
          b.status ≠ BStatus.cancelled ∧ tw = true) := by
        rintro ⟨-, h2, -⟩
        exact h2 hbc
      have h2 : ¬(req.status = BStatus.confirmed ∧
          b.status ≠ BStatus.confirmed ∧ tw = true) := by
        rintro ⟨h1, -, -⟩
        rw [hst] at h1
        exact BStatus.noConfusion h1
      have h3 : ¬(req.status = BStatus.completed ∧
          b.status ≠ BStatus.completed ∧ tw = true) := by
        rintro ⟨h1, -, -⟩
        rw [hst] at h1
        exact BStatus.noConfusion h1
      rw [if_neg h1, if_neg h2, if_neg h3]
      rfl
  · intro hbc hp
    exact ((hcanc.2 b hb).2.1 hbc).mpr hp

/-- Witness for C10: updating an already-cancelled booking to cancelled
succeeds with no slot release and no notification, while cancel rejects
it. -/
theorem update_bypasses_cancel_guards_witness :
    (cancelBooking ⟨[⟨9, "aa", "0123456789", "cut", 0, some "10:00",
      some "10:00", .cancelled, none⟩], [], 10⟩ 0 9).1 = .alreadyCancelled ∧
    (updateBooking ⟨[⟨9, "aa", "0123456789", "cut", 0, some "10:00",
      some "10:00", .cancelled, none⟩], [], 10⟩ true 9
      ⟨.cancelled, none⟩).db.slotEntries = [] ∧
    (updateBooking ⟨[⟨9, "aa", "0123456789", "cut", 0, some "10:00",
      some "10:00", .cancelled, none⟩], [], 10⟩ true 9
      ⟨.cancelled, none⟩).notifs = [] :=
  have h := update_bypasses_cancel_guards ⟨[⟨9, "aa", "0123456789", "cut",
    0, some "10:00", some "10:00", .cancelled, none⟩], [], 10⟩ true 0 9
    ⟨.cancelled, none⟩ ⟨9, "aa", "0123456789", "cut", 0, some "10:00",
    some "10:00", .cancelled, none⟩ rfl rfl rfl
  ⟨(h.2.2.1 rfl).1, (h.2.2.1 rfl).2.1, (h.2.2.1 rfl).2.2⟩

/-- C1: after a successful create whose request did not ask for status
cancelled, a second validated create request at the same day and selected
time fails with one of the HTTP 409 conflict outcomes (board conflict,
ledger pre-check, or duplicate key) and leaves the state unchanged: the
second booking is not inserted. -/
theorem create_then_create_conflict
    (db : DB) (now1 now2 : Nat) (req1 req2 : CreateReq) (b : Booking) (db1 : DB)
    (h1 : createBooking db now1 req1 = (.created b, db1))
    (hstat : req1.status ≠ some .cancelled)
    (hv2 : joiValidate now2 req2 = true)
    (hd : truncDay req2.date = truncDay req1.date)
    (ht : selTime req2 = selTime req1) :
    isConflict (createBooking db1 now2 req2).1 = true ∧
    (createBooking db1 now2 req2).2 = db1 := by
  obtain ⟨st, hv1, hsel1, hp1, hbc1, hlc1, hui1, hb, hdb1⟩ :=
    createBooking_created_inv h1
  have hsel2 : selTime req2 = some st := by rw [ht, hsel1]
  have hnp : ¬ truncDay req2.date < truncDay now2 :=
    Nat.not_lt.mpr (truncDay_mono (joiValidate_date_le hv2))
  have hnp' : ¬ truncDay req1.date < truncDay now2 := by rw [← hd]; exact hnp
  have hpred : ledgerConflictPred (truncDay req1.date) st b = true := by
    rw [hb]
    unfold ledgerConflictPred
    simp only [Bool.and_eq_true, Bool.or_eq_true, decide_eq_true_eq]
    exact ⟨⟨trivial, Or.inl trivial⟩,
      fun hcon => getD_confirmed_ne_cancelled hstat hcon⟩
  have hmem : b ∈ db1.bookings := by
    rw [hdb1]
    exact List.mem_append_right _ (List.mem_singleton.mpr rfl)
  have hledger : hasLedgerConflict db1 (truncDay req1.date) st = true := by
    unfold hasLedgerConflict
    rw [List.any_eq_true]
    exact ⟨b, hmem, hpred⟩
  by_cases hbc : boardConflict db1 (truncDay req1.date) st = true
  · have heq : createBooking db1 now2 req2 = (.slotConflict, db1) := by
      simp [createBooking, hv2, hsel2, hd, hnp', hbc]
    rw [heq]
    exact ⟨rfl, rfl⟩
  · have heq : createBooking db1 now2 req2 = (.ledgerConflict, db1) := by
      simp [createBooking, hv2, hsel2, hd, hnp', hbc, hledger]
    rw [heq]
    exact ⟨rfl, rfl⟩

/-- Witness for C1: the second create at day 0, 10:00 is rejected as a
conflict and inserts nothing. -/
theorem create_then_create_conflict_witness :
    isConflict (createBooking ⟨[⟨0, "ab", "0123456789", "cut", 0,
      some "10:00", some "10:00", .confirmed, none⟩], [], 1⟩ 0
      ⟨"ab", "0123456789", "cut", 0, some "10:00", none, none, none⟩).1
      = true ∧
    (createBooking ⟨[⟨0, "ab", "0123456789", "cut", 0, some "10:00",
      some "10:00", .confirmed, none⟩], [], 1⟩ 0
      ⟨"ab", "0123456789", "cut", 0, some "10:00", none, none, none⟩).2
      = ⟨[⟨0, "ab", "0123456789", "cut", 0, some "10:00", some "10:00",
        .confirmed, none⟩], [], 1⟩ :=
  create_then_create_conflict ⟨[], [], 0⟩ 0 0
    ⟨"ab", "0123456789", "cut", 0, some "10:00", none, none, none⟩
    ⟨"ab", "0123456789", "cut", 0, some "10:00", none, none, none⟩
    ⟨0, "ab", "0123456789", "cut", 0, some "10:00", some "10:00",
      .confirmed, none⟩
    ⟨[⟨0, "ab", "0123456789", "cut", 0, some "10:00", some "10:00",
      .confirmed, none⟩], [], 1⟩
    (by decide) (by decide) (by decide) rfl rfl

/-- C2 fails on the code: after cancelling the booking at day 0, 10:00,
the ledger pre-check indeed sees no active booking at that slot, yet
re-creating the same slot is rejected with the duplicate-key conflict,
because the (date, time) unique index has no filter excluding cancelled
records; the new booking is not inserted. -/
theorem cancel_then_recreate_hits_unique_index :
    (cancelBooking ⟨[⟨0, "ab", "0123456789", "cut", 0, some "10:00",
      some "10:00", .confirmed, none⟩], [], 1⟩ 0 0).1 = .success ∧
    hasLedgerConflict (cancelBooking ⟨[⟨0, "ab", "0123456789", "cut", 0,
      some "10:00", some "10:00", .confirmed, none⟩], [], 1⟩ 0 0).2
      0 "10:00" = false ∧
    (createBooking (cancelBooking ⟨[⟨0, "ab", "0123456789", "cut", 0,
      some "10:00", some "10:00", .confirmed, none⟩], [], 1⟩ 0 0).2 0
      ⟨"ab", "0123456789", "cut", 0, some "10:00", none, none, none⟩).1
      = .duplicateKey ∧
    (createBooking (cancelBooking ⟨[⟨0, "ab", "0123456789", "cut", 0,
      some "10:00", some "10:00", .confirmed, none⟩], [], 1⟩ 0 0).2 0
      ⟨"ab", "0123456789", "cut", 0, some "10:00", none, none, none⟩).2
      = (cancelBooking ⟨[⟨0, "ab", "0123456789", "cut", 0, some "10:00",
        some "10:00", .confirmed, none⟩], [], 1⟩ 0 0).2 := by
  decide

/-- C5 fails on the code: a request that passes every non-date check and
is dated the current calendar day (midnight of the day of `now`) is
nevertheless rejected, because the Joi date bound compares against the
current instant, not the current day. -/
theorem create_today_rejected_by_validation :
    joiRestOk ⟨"ab", "0123456789", "cut", 86400000, some "10:00",
      none, none, none⟩ = true ∧
    joiValidate 0 ⟨"ab", "0123456789", "cut", 86400000, some "10:00",
      none, none, none⟩ = true ∧
    truncDay 86400000 = truncDay 86400001 ∧
    (createBooking ⟨[], [], 0⟩ 86400001 ⟨"ab", "0123456789", "cut",
      86400000, some "10:00", none, none, none⟩).1 = .validationErr := by
  decide

/-- C5 amended: under the non-date validation checks, the create pipeline
rejects on date grounds exactly when the requested instant is strictly
before the current instant; the controller's dedicated past-date outcome
is unreachable (validation already admits only dates at or after `now`),
and any request whose day-truncated date is before today is rejected at
validation. -/
theorem create_past_rejection_amended (db : DB) (now : Nat) (req : CreateReq)
    (hrest : joiRestOk req = true) :
    ((createBooking db now req).1 = .validationErr ↔ req.date < now) ∧
    (createBooking db now req).1 ≠ .pastDate ∧
    (truncDay req.date < truncDay now →
      (createBooking db now req).1 = .validationErr) := by
  by_cases hdate : now ≤ req.date
  · have hv : joiValidate now req = true := by
      unfold joiValidate joiDateOk
      rw [hrest]
      simpa using hdate
    obtain ⟨st, hsel⟩ := joiRestOk_selTime hrest
    have hnp : ¬ truncDay req.date < truncDay now :=
      Nat.not_lt.mpr (truncDay_mono hdate)
    have hne : (createBooking db now req).1 ≠ .validationErr ∧
        (createBooking db now req).1 ≠ .pastDate := by
      by_cases h1 : boardConflict db (truncDay req.date) st = true
      · have heq : createBooking db now req = (.slotConflict, db) := by
          simp [createBooking, hv, hsel, hnp, h1]
        rw [heq]
        exact ⟨fun h => CreateResult.noConfusion h,
          fun h => CreateResult.noConfusion h⟩
      · by_cases h2 : hasLedgerConflict db (truncDay req.date) st = true
        · have heq : createBooking db now req = (.ledgerConflict, db) := by
            simp [createBooking, hv, hsel, hnp, h1, h2]
          rw [heq]
          exact ⟨fun h => CreateResult.noConfusion h,
            fun h => CreateResult.noConfusion h⟩
        · by_cases h3 : uniqueIndexViolation db (truncDay req.date) st = true
          · have heq : createBooking db now req = (.duplicateKey, db) := by
              simp [createBooking, hv, hsel, hnp, h1, h2, h3]
            rw [heq]
            exact ⟨fun h => CreateResult.noConfusion h,
              fun h => CreateResult.noConfusion h⟩
          · have heq : (createBooking db now req).1 = .created (preSave
                { id := db.nextId, name := strTrim req.name,
                  phone := req.phone, service := strTrim req.service,
                  date := truncDay req.date, time := some st,
                  timeSlot := some st, status := req.status.getD .confirmed,
                  notes := normNotes req.notes }) := by
              simp [createBooking, hv, hsel, hnp, h1, h2, h3]
            rw [heq]
            exact ⟨fun h => CreateResult.noConfusion h,
              fun h => CreateResult.noConfusion h⟩
    refine ⟨⟨fun h => absurd h hne.1, fun h => absurd h (Nat.not_lt.mpr hdate)⟩,
      hne.2, fun hp => absurd hp hnp⟩
  · have hv : ¬ joiValidate now req = true := by
      unfold joiValidate joiDateOk
      intro hcontra
      simp [Bool.and_eq_true] at hcontra
      exact hdate hcontra.2
    have heq : createBooking db now req = (.validationErr, db) := by
      unfold createBooking
      rw [if_neg hv]
    rw [heq]
    exact ⟨⟨fun _ => Nat.lt_of_not_le hdate, fun _ => rfl⟩,
      fun h => CreateResult.noConfusion h, fun _ => rfl⟩

/-- Witness for C5's amended statement: for the otherwise-valid request
dated day-1 midnight, rejection tracks the instant comparison. -/
theorem create_past_rejection_amended_witness :
    ((createBooking ⟨[], [], 0⟩ 86400001 ⟨"ab", "0123456789", "cut",
      86400000, some "10:00", none, none, none⟩).1 = .validationErr ↔
      (⟨"ab", "0123456789", "cut", 86400000, some "10:00", none, none, none⟩
        : CreateReq).date < 86400001) ∧
    (createBooking ⟨[], [], 0⟩ 86400001 ⟨"ab", "0123456789", "cut",
      86400000, some "10:00", none, none, none⟩).1 ≠ .pastDate ∧
    (truncDay (⟨"ab", "0123456789", "cut", 86400000, some "10:00", none,
      none, none⟩ : CreateReq).date < truncDay 86400001 →
      (createBooking ⟨[], [], 0⟩ 86400001 ⟨"ab", "0123456789", "cut",
        86400000, some "10:00", none, none, none⟩).1 = .validationErr) :=
  create_past_rejection_amended ⟨[], [], 0⟩ 86400001
    ⟨"ab", "0123456789", "cut", 86400000, some "10:00", none, none, none⟩
    (by decide)

end Parlour
